import Mathlib

set_option maxHeartbeats 1000000

namespace Todo

/-!
Shallow embedding of the Task data model and operations of the
"Evolution of Todo" repository.

Sources:
* Phase II web backend: `src/plan.md` (SQLModel Task Model, lines 472-514,
  and Task Service, lines 516-588), `src/todo-web/frontend/src/components/task/task-form.tsx`.
* Phase I console application: `src/plan.md` (Task dataclass, lines 80-103,
  and TaskStorage, lines 110-157, CommandHandler, lines 162-214).
* Task Query Engine: the repository declares the filter parameters
  (`due_before`, `due_after`, `tags`, `priority` in the API design and the
  frontend callers) but contains no implementation of the date/tag/priority
  filtering or of the sorting; those definitions are modelled from the spec.

Machine encodings: timestamps and calendar dates are naturals, UUIDs are
naturals.  Python `None` is `Option.none`.  Mutation is explicit state
passing; Python object aliasing, where it matters, is modelled by a small
heap of list cells.
-/

/-- Replaces the first element satisfying `p` by `f` of that element,
mirroring a Python in-place mutation of the first matching object in a
list (a no-op when nothing matches, as in `if task: ...`). -/
def modifyFirst {α : Type} (p : α → Bool) (f : α → α) : List α → List α
  | [] => []
  | x :: xs => if p x then f x :: xs else x :: modifyFirst p f xs

/-- Removes the first element satisfying `p`, mirroring Python
`list.remove` of the object found by a preceding scan with the same
predicate. -/
def removeFirst {α : Type} (p : α → Bool) : List α → List α
  | [] => []
  | x :: xs => if p x then xs else x :: removeFirst p xs

/-- Status enum of the web Task model (`src/plan.md`, `TaskStatus`). -/
inductive TaskStatus where
  | pending
  | in_progress
  | done
deriving DecidableEq, Inhabited

/-- Priority enum of the web Task model (`src/plan.md`, `TaskPriority`). -/
inductive TaskPriority where
  | low
  | medium
  | high
deriving DecidableEq, Inhabited

/-- The stored Task row (`src/plan.md`, `class Task(TaskBase, table=True)`;
field-for-field, with `id`/`user_id` UUIDs as naturals and
timestamps/dates as naturals). -/
structure Task where
  id : Nat
  user_id : Nat
  title : String
  description : Option String
  status : TaskStatus
  priority : TaskPriority
  due_date : Option Nat
  tags : List String
  created_at : Nat
  updated_at : Nat
  completed_at : Option Nat
deriving DecidableEq, Inhabited

/-- Create input (`src/plan.md`, `TaskCreate(TaskBase)`), with the
`TaskBase` defaults: status `pending`, priority `medium`, no description,
no due date, empty tags. -/
structure TaskCreate where
  title : String
  description : Option String := none
  status : TaskStatus := TaskStatus.pending
  priority : TaskPriority := TaskPriority.medium
  due_date : Option Nat := none
  tags : List String := []
deriving DecidableEq

/-- The Pydantic field constraints on `TaskBase` (`src/plan.md` lines
489-495): `title` has `min_length=1, max_length=200`, `description` has
`max_length=1000`.  The same bound appears in the frontend Zod schema
(`task-form.tsx`: `z.string().min(1).max(200)`).  Lengths are counted on
the raw string: neither validator strips whitespace. -/
def TaskCreate.valid (c : TaskCreate) : Bool :=
  decide (1 ≤ c.title.length) && decide (c.title.length ≤ 200) &&
    (match c.description with
     | none => true
     | some d => decide (d.length ≤ 1000))

/-- Partial-update input (`src/plan.md`, `TaskUpdate`).  A `none` field is
a field absent from the request (Pydantic `exclude_unset`); for the fields
whose column is itself nullable the supplied value is again an `Option`. -/
structure TaskUpdate where
  title : Option String := none
  description : Option (Option String) := none
  status : Option TaskStatus := none
  priority : Option TaskPriority := none
  due_date : Option (Option Nat) := none
  tags : Option (List String) := none
deriving DecidableEq

/-- The tasks table reachable through the database session. -/
structure Store where
  tasks : List Task
deriving DecidableEq, Inhabited

/-- Error taxonomy of the service layer. -/
inductive ApiError where
  | validation
  | notFound
deriving DecidableEq

namespace TaskService

/-- `TaskService.create` (`src/plan.md` lines 530-535) guarded by the
Pydantic validation of its `TaskCreate` input: on validation failure
nothing reaches the session; on success a row with fresh id, both
timestamps set to now and `completed_at = None` is inserted. -/
def create (s : Store) (uid : Nat) (c : TaskCreate) (newId now : Nat) :
    Except ApiError (Task × Store) :=
  if c.valid then
    let t : Task :=
      { id := newId, user_id := uid, title := c.title,
        description := c.description, status := c.status,
        priority := c.priority, due_date := c.due_date, tags := c.tags,
        created_at := now, updated_at := now, completed_at := none }
    Except.ok (t, ⟨s.tasks ++ [t]⟩)
  else
    Except.error ApiError.validation

/-- `TaskService.get` (`src/plan.md` lines 537-543): select where
`Task.id == task_id` and `Task.user_id == user_id`, first result or
`None`. -/
def get (s : Store) (task_id uid : Nat) : Option Task :=
  (s.tasks.filter (fun t => t.id == task_id && t.user_id == uid)).head?

/-- `TaskService.list` (`src/plan.md` lines 545-557): select the owner's
rows, optionally narrowed by status, then offset/limit.  Note that this
is the only listing code in the repository: it has no due-date, tag or
priority parameters and applies no sorting. -/
def list (s : Store) (uid : Nat) (status : Option TaskStatus)
    (limit offset : Nat) : List Task :=
  ((((s.tasks.filter (fun t => t.user_id == uid)).filter
      (fun t =>
        match status with
        | none => true
        | some st => t.status == st)).drop offset).take limit)

/-- The field assignment loop and timestamp logic of `TaskService.update`
(`src/plan.md` lines 569-576): set each field present in the request,
set `updated_at` to now, and set `completed_at` to now when the request
status is `done`.  No branch clears `completed_at`. -/
def applyUpdate (t : Task) (u : TaskUpdate) (now : Nat) : Task :=
  { id := t.id, user_id := t.user_id,
    title := (match u.title with | none => t.title | some v => v),
    description :=
      (match u.description with | none => t.description | some v => v),
    status := (match u.status with | none => t.status | some v => v),
    priority := (match u.priority with | none => t.priority | some v => v),
    due_date := (match u.due_date with | none => t.due_date | some v => v),
    tags := (match u.tags with | none => t.tags | some v => v),
    created_at := t.created_at,
    updated_at := now,
    completed_at :=
      (if u.status == some TaskStatus.done then some now
       else t.completed_at) }

/-- `TaskService.update` (`src/plan.md` lines 559-580): fetch through
`get` (so a wrong owner behaves like a missing row), mutate the fetched
object in place, commit. -/
def update (s : Store) (task_id uid : Nat) (u : TaskUpdate) (now : Nat) :
    Option (Task × Store) :=
  match get s task_id uid with
  | none => none
  | some t =>
    let t' := applyUpdate t u now
    some (t',
      ⟨modifyFirst (fun x => x.id == task_id && x.user_id == uid)
        (fun _ => t') s.tasks⟩)

/-- `TaskService.delete` (`src/plan.md` lines 582-588): fetch through
`get`; when absent or owned by someone else return `False` with the store
untouched, otherwise remove the fetched row. -/
def delete (s : Store) (task_id uid : Nat) : Bool × Store :=
  match get s task_id uid with
  | none => (false, s)
  | some _ =>
    (true,
      ⟨removeFirst (fun x => x.id == task_id && x.user_id == uid) s.tasks⟩)

/-- The mark-done convenience operation: an update supplying only
`status = done` (frontend toggle in `src/plan.md` lines 617-621 and
`task-card.tsx`; spec section 4.4). -/
def markDone (s : Store) (task_id uid now : Nat) : Option (Task × Store) :=
  update s task_id uid { status := some TaskStatus.done } now

/-- The mark-pending convenience operation: an update supplying only
`status = pending`. -/
def markPending (s : Store) (task_id uid now : Nat) : Option (Task × Store) :=
  update s task_id uid { status := some TaskStatus.pending } now

end TaskService

namespace Console

/-- Phase I console status (`src/plan.md` line 85:
`TaskStatus = Literal["pending", "done"]`). -/
inductive TaskStatus where
  | pending
  | done
deriving DecidableEq, Inhabited

/-- Phase I console `Task` dataclass (`src/plan.md` lines 87-94). -/
structure Task where
  id : Nat
  title : String
  description : Option String := none
  status : TaskStatus := TaskStatus.pending
  created_at : Nat
  completed_at : Option Nat := none
deriving DecidableEq, Inhabited

/-- `Task.mark_done` (`src/plan.md` lines 96-98): sets status to done and
re-stamps `completed_at` with the current time on every call. -/
def Task.mark_done (t : Task) (now : Nat) : Task :=
  { t with status := TaskStatus.done, completed_at := some now }

/-- `Task.mark_pending` (`src/plan.md` lines 100-102): sets status to
pending and clears `completed_at`. -/
def Task.mark_pending (t : Task) : Task :=
  { t with status := TaskStatus.pending, completed_at := none }

/-- The `TaskStorage` state (`src/plan.md` lines 113-115): the task list
and the `_next_id` counter. -/
structure TaskStorage where
  tasks : List Task
  next_id : Nat
deriving DecidableEq, Inhabited

/-- `TaskStorage.__init__`: empty list, `_next_id = 1`. -/
def TaskStorage.init : TaskStorage := ⟨[], 1⟩

/-- `TaskStorage.create` (`src/plan.md` lines 117-126): assigns
`_next_id` as the id, appends, increments `_next_id`. -/
def TaskStorage.create (s : TaskStorage) (title : String)
    (description : Option String) (now : Nat) : Task × TaskStorage :=
  let t : Task :=
    { id := s.next_id, title := title, description := description,
      status := TaskStatus.pending, created_at := now, completed_at := none }
  (t, ⟨s.tasks ++ [t], s.next_id + 1⟩)

/-- `TaskStorage.get` (`src/plan.md` lines 128-133): linear scan for the
first task with the id. -/
def TaskStorage.get (s : TaskStorage) (task_id : Nat) : Option Task :=
  s.tasks.find? (fun t => t.id == task_id)

/-- The value returned by `TaskStorage.list` (`src/plan.md` lines
135-139): all tasks, or those with the requested status.  (The freshness
of the returned list object is modelled separately by `listRef`.) -/
def TaskStorage.list (s : TaskStorage) (status : Option TaskStatus) :
    List Task :=
  match status with
  | none => s.tasks
  | some st => s.tasks.filter (fun t => t.status == st)

/-- `TaskStorage.update` (`src/plan.md` lines 141-148) as invoked by
`CommandHandler.edit` (lines 202-213): the kwargs its callers supply are
`title` and `description` only, so `id` is never among the attributes
set.  The first task with the id is mutated in place. -/
def TaskStorage.update (s : TaskStorage) (task_id : Nat)
    (title description : Option String) : Option Task × TaskStorage :=
  match s.get task_id with
  | none => (none, s)
  | some t =>
    let t' : Task :=
      { t with
        title := (match title with | none => t.title | some v => v),
        description :=
          (match description with | none => t.description | some v => v) }
    (some t',
      ⟨modifyFirst (fun x => x.id == task_id) (fun _ => t') s.tasks,
        s.next_id⟩)

/-- `TaskStorage.delete` (`src/plan.md` lines 150-156): removes the found
task; `_next_id` is left untouched. -/
def TaskStorage.delete (s : TaskStorage) (task_id : Nat) :
    Bool × TaskStorage :=
  match s.get task_id with
  | none => (false, s)
  | some _ =>
    (true, ⟨removeFirst (fun x => x.id == task_id) s.tasks, s.next_id⟩)

/-- `CommandHandler.done` (`src/plan.md` lines 180-186): fetch by id, and
when found call `mark_done` on the stored object. -/
def doneCmd (s : TaskStorage) (task_id now : Nat) : TaskStorage :=
  ⟨modifyFirst (fun x => x.id == task_id) (fun t => t.mark_done now) s.tasks,
    s.next_id⟩

/-- `CommandHandler.undo` (`src/plan.md` lines 188-194): fetch by id, and
when found call `mark_pending` on the stored object. -/
def undoCmd (s : TaskStorage) (task_id : Nat) : TaskStorage :=
  ⟨modifyFirst (fun x => x.id == task_id) (fun t => t.mark_pending) s.tasks,
    s.next_id⟩

/-- The state-changing operations of the console application surface
(`add`, `edit`, `done`, `undo`, `delete`; `get` and `list` do not change
the state). -/
inductive Op where
  | create (title : String) (description : Option String) (now : Nat)
  | edit (task_id : Nat) (title description : Option String)
  | done (task_id : Nat) (now : Nat)
  | undo (task_id : Nat)
  | delete (task_id : Nat)

/-- One storage transition. -/
def step (s : TaskStorage) : Op → TaskStorage
  | Op.create title description now => (s.create title description now).2
  | Op.edit task_id title description => (s.update task_id title description).2
  | Op.done task_id now => doneCmd s task_id now
  | Op.undo task_id => undoCmd s task_id
  | Op.delete task_id => (s.delete task_id).2

/-- Runs a sequence of operations from a state. -/
def run (s : TaskStorage) : List Op → TaskStorage
  | [] => s
  | op :: ops => run (step s op) ops

/-- The id discipline of the console storage: every stored id is below
`_next_id`, stored ids are pairwise distinct, and `_next_id` is at least
its initial value 1. -/
def IdInvariant (s : TaskStorage) : Prop :=
  (∀ t ∈ s.tasks, t.id < s.next_id) ∧
    (s.tasks.map (fun t => t.id)).Nodup ∧ 1 ≤ s.next_id

/-- A minimal heap of Python list objects: cell index is the object
reference, `self._tasks` lives in one such cell. -/
structure Heap where
  cells : List (List Task)
deriving DecidableEq, Inhabited

/-- Dereference a list object. -/
def Heap.read (h : Heap) (r : Nat) : List Task := (h.cells[r]?).getD []

/-- Mutate a list object in place (what a caller-side `append`/`remove`
on the returned list does). -/
def Heap.write (h : Heap) (r : Nat) (v : List Task) : Heap :=
  ⟨h.cells.set r v⟩

/-- Allocate a fresh list object. -/
def Heap.alloc (h : Heap) (v : List Task) : Nat × Heap :=
  (h.cells.length, ⟨h.cells ++ [v]⟩)

/-- `TaskStorage.list` at the object level (`src/plan.md` lines 135-139):
the branch with no filter returns `self._tasks.copy()`, the status branch
builds a new list by comprehension; both allocate a fresh cell and leave
the cell holding `self._tasks` alone. -/
def listRef (h : Heap) (ref : Nat) (status : Option TaskStatus) :
    Nat × Heap :=
  match status with
  | none => h.alloc (h.read ref)
  | some st => h.alloc ((h.read ref).filter (fun t => t.status == st))

end Console

namespace Query

/-- The filter specification of the Task Query Engine: the optional
predicates named by the API design (`status`, `priority`, `due_before`,
`due_after`, `tags`). -/
structure FilterSpec where
  status : Option TaskStatus := none
  due_after : Option Nat := none
  due_before : Option Nat := none
  priority : Option TaskPriority := none
  tags : Option (List String) := none
deriving DecidableEq

/-- Modelled from the spec: step 1 of the Query Engine (status filter);
the repository declares the `status` query parameter but contains no
query-engine implementation. -/
def statusOk (f : FilterSpec) (t : Task) : Bool :=
  match f.status with
  | none => true
  | some st => t.status == st

/-- Modelled from the spec: the lower half of the due-date window of the
Query Engine — when `due_after` is supplied, a task passes only with a
non-null `due_date` at or above the bound. -/
def afterOk (f : FilterSpec) (t : Task) : Bool :=
  match f.due_after with
  | none => true
  | some a =>
    match t.due_date with
    | none => false
    | some d => decide (a ≤ d)

/-- Modelled from the spec: the upper half of the due-date window — when
`due_before` is supplied, a task passes only with a non-null `due_date`
at or below the bound. -/
def beforeOk (f : FilterSpec) (t : Task) : Bool :=
  match f.due_before with
  | none => true
  | some b =>
    match t.due_date with
    | none => false
    | some d => decide (d ≤ b)

/-- Modelled from the spec: step 2 of the Query Engine (due-date window);
the repository declares `due_after`/`due_before` (frontend Upcoming view,
API design) but contains no implementation.  A task with a null
`due_date` is excluded whenever either bound is supplied (it cannot
satisfy a due-date range) and untouched by this step when neither is. -/
def dateOk (f : FilterSpec) (t : Task) : Bool :=
  afterOk f t && beforeOk f t

/-- Modelled from the spec: step 3 of the Query Engine (priority
filter). -/
def priorityOk (f : FilterSpec) (t : Task) : Bool :=
  match f.priority with
  | none => true
  | some p => t.priority == p

/-- Modelled from the spec: step 4 of the Query Engine (tag filter,
match-any): keep tasks whose tag set intersects the requested set. -/
def tagsOk (f : FilterSpec) (t : Task) : Bool :=
  match f.tags with
  | none => true
  | some req => t.tags.any (fun tag => req.contains tag)

/-- Modelled from the spec: the four filter steps applied in order. -/
def applyFilters (f : FilterSpec) (ts : List Task) : List Task :=
  (((ts.filter (statusOk f)).filter (dateOk f)).filter
      (priorityOk f)).filter (tagsOk f)

/-- Rank for descending priority: high sorts before medium before low. -/
def priorityRank : TaskPriority → Nat
  | TaskPriority.high => 0
  | TaskPriority.medium => 1
  | TaskPriority.low => 2

/-- Due-date null marker: null due dates sort last. -/
def dueNull : Option Nat → Nat
  | none => 1
  | some _ => 0

/-- Due-date value for comparison among non-null dates. -/
def dueVal : Option Nat → Nat
  | none => 0
  | some d => d

/-- Modelled from the spec: the deterministic sort order — primary key
descending by priority (high before medium before low), secondary key
ascending by due date with nulls last, tertiary key ascending by
`created_at`. -/
def taskLE (t u : Task) : Prop :=
  priorityRank t.priority < priorityRank u.priority ∨
    (priorityRank t.priority = priorityRank u.priority ∧
      (dueNull t.due_date < dueNull u.due_date ∨
        (dueNull t.due_date = dueNull u.due_date ∧
          (dueVal t.due_date < dueVal u.due_date ∨
            (dueVal t.due_date = dueVal u.due_date ∧
              t.created_at ≤ u.created_at)))))

instance taskLE.instDecidable : DecidableRel taskLE := fun t u => by
  unfold taskLE
  infer_instance

instance taskLE.instIsTotal : IsTotal Task taskLE := by
  constructor
  intro a b
  unfold taskLE
  omega

instance taskLE.instIsTrans : IsTrans Task taskLE := by
  constructor
  intro a b c hab hbc
  unfold taskLE at hab hbc ⊢
  omega

/-- Modelled from the spec: the sorting pass applied after filtering. -/
def sortTasks (ts : List Task) : List Task :=
  List.insertionSort taskLE ts

/-- Modelled from the spec: the Task Query Engine `listTasks` over one
owner's collection — filtering in order, then the deterministic sort. -/
def listTasks (f : FilterSpec) (ts : List Task) : List Task :=
  sortTasks (applyFilters f ts)

/-- Membership in the engine output: sorting permutes, so a task is in
the output exactly when it is in the input and passes the four filter
steps. -/
theorem mem_listTasks (f : FilterSpec) (ts : List Task) (x : Task) :
    x ∈ listTasks f ts ↔
      (x ∈ ts ∧ statusOk f x = true ∧ dateOk f x = true ∧
        priorityOk f x = true ∧ tagsOk f x = true) := by
  unfold listTasks sortTasks applyFilters
  rw [List.mem_insertionSort]
  simp only [List.mem_filter]
  tauto

end Query

/-- A status field different from `some done` compares `false` under
boolean equality with `some done`. -/
theorem beq_some_done_eq_false {o : Option TaskStatus}
    (h : o ≠ some TaskStatus.done) :
    (o == some TaskStatus.done) = false := by
  cases o with
  | none => rfl
  | some v => cases v <;> simp_all

/-! ## Claim C1: the status/completed_at coupling -/

/-- Scenario for C1: create a task in the empty store. -/
def c1Run0 : Except ApiError (Task × Store) :=
  TaskService.create ⟨[]⟩ 1 { title := "a" } 1 0

/-- The store after the create. -/
def c1Store1 : Store := (c1Run0.toOption.getD default).2

/-- Mark the created task done at time 1. -/
def c1Run1 : Option (Task × Store) := TaskService.markDone c1Store1 1 1 1

/-- The store after the markDone. -/
def c1Store2 : Store := (c1Run1.getD default).2

/-- Mark the task pending again at time 2. -/
def c1Run2 : Option (Task × Store) := TaskService.markPending c1Store2 1 1 2

/-- The task as stored after the markPending. -/
def c1Task3 : Task := (c1Run2.getD default).1

/-- C1 counterexample: from the empty store, `create`, `markDone` and
`markPending` all succeed; the coupling invariant holds up to and
including the `markDone`, but after the `markPending` the task has status
`pending` while `completed_at` is still the `markDone` timestamp — the
update that moved status away from `done` did not clear `completed_at`,
refuting the claimed iff-invariant over the API surface. -/
theorem C1_counterexample :
    c1Run0.isOk = true ∧ c1Run1.isSome = true ∧ c1Run2.isSome = true ∧
      c1Store2.tasks.all
          (fun t => (t.status == TaskStatus.done) == t.completed_at.isSome) =
        true ∧
      c1Task3.status = TaskStatus.pending ∧ c1Task3.completed_at = some 1 ∧
      (c1Run2.getD default).2.tasks.all
          (fun t => (t.status == TaskStatus.done) == t.completed_at.isSome) =
        false := by
  decide

/-- C1 amended: a found update always succeeds; an update that sets
status to `done` sets `completed_at` to the update time, but an update
whose status field is absent or different from `done` leaves
`completed_at` exactly as it was — it is not cleared — so the invariant
`status == done` iff `completed_at` non-null does not survive an update
that moves a completed task away from `done`. -/
theorem C1_amended (s : Store) (task_id uid : Nat) (u : TaskUpdate)
    (now : Nat) (t : Task) (h : TaskService.get s task_id uid = some t) :
    (TaskService.update s task_id uid u now).isSome = true ∧
      (u.status = some TaskStatus.done →
        (TaskService.applyUpdate t u now).completed_at = some now) ∧
      (u.status ≠ some TaskStatus.done →
        (TaskService.applyUpdate t u now).completed_at = t.completed_at) := by
  refine ⟨?_, ?_, ?_⟩
  · simp [TaskService.update, h]
  · intro hs
    simp [TaskService.applyUpdate, hs]
  · intro hs
    simp [TaskService.applyUpdate, beq_some_done_eq_false hs]

/-- A concrete stored task used by several witnesses. -/
def c1wTask : Task :=
  { id := 1, user_id := 1, title := "a", description := none,
    status := TaskStatus.pending, priority := TaskPriority.medium,
    due_date := none, tags := [], created_at := 0, updated_at := 0,
    completed_at := none }

/-- Witness for C1_amended at a concrete store and update. -/
theorem C1_amended_witness :
    (TaskService.update ⟨[c1wTask]⟩ 1 1 { status := some TaskStatus.done }
          5).isSome = true ∧
      (TaskService.applyUpdate c1wTask { status := some TaskStatus.done }
          5).completed_at = some 5 :=
  ⟨(C1_amended ⟨[c1wTask]⟩ 1 1 { status := some TaskStatus.done } 5 c1wTask
      (by decide)).1,
   (C1_amended ⟨[c1wTask]⟩ 1 1 { status := some TaskStatus.done } 5 c1wTask
      (by decide)).2.1 rfl⟩

/-! ## Claim C3: empty and whitespace-only titles -/

/-- C3 counterexample: the title consisting of a single space has raw
length 1, so it passes the `min_length=1` validation (no whitespace is
stripped anywhere): `createTask` succeeds and a task with title `" "` is
stored, refuting the claim for whitespace-only titles. -/
theorem C3_counterexample :
    (TaskService.create ⟨[]⟩ 1 { title := " " } 1 0).isOk = true ∧
      ((TaskService.create ⟨[]⟩ 1 { title := " " } 1
            0).toOption.getD default).2.tasks.length = 1 ∧
      ((TaskService.create ⟨[]⟩ 1 { title := " " } 1
            0).toOption.getD default).1.title = " " := by
  decide

/-- C3 amended: an empty title fails validation with a ValidationError
and nothing is stored; but titles are not stripped, so any input passing
the raw-length constraints (whitespace-only titles of length between 1
and 200 included) is accepted and a task is created. -/
theorem C3_amended (s : Store) (uid : Nat) (c : TaskCreate)
    (newId now : Nat) :
    (c.title = "" →
        TaskService.create s uid c newId now =
          Except.error ApiError.validation) ∧
      (c.valid = true → (TaskService.create s uid c newId now).isOk = true) := by
  constructor
  · intro h
    have hv : c.valid = false := by
      simp [TaskCreate.valid, h]
    simp [TaskService.create, hv]
  · intro h
    simp [TaskService.create, h, Except.isOk, Except.toBool]

/-- Witness for C3_amended: the empty title is rejected, a one-letter
title is accepted. -/
theorem C3_amended_witness :
    TaskService.create ⟨[]⟩ 1 { title := "" } 1 0 =
        Except.error ApiError.validation ∧
      (TaskService.create ⟨[]⟩ 1 { title := "b" } 1 0).isOk = true :=
  ⟨(C3_amended ⟨[]⟩ 1 { title := "" } 1 0).1 rfl,
   (C3_amended ⟨[]⟩ 1 { title := "b" } 1 0).2 (by decide)⟩

/-! ## Claim C2: wrong owner is indistinguishable from nonexistent id -/

/-- C2: for a stored task `t` owned by `a`, any other owner `b` calling
`get`, `update` or `delete` with `t`'s id gets exactly the outcome of
calling with an id `nid` matching no stored task: `get` and `update`
return nothing, `delete` returns `false` and leaves the store untouched.
The two cases are indistinguishable to the caller. -/
theorem C2 (s : Store) (t : Task) (a b nid : Nat) (u : TaskUpdate)
    (now : Nat) (hmem : t ∈ s.tasks) (ha : t.user_id = a) (hb : b ≠ a)
    (huniq : ∀ x ∈ s.tasks, x.id = t.id → x = t)
    (hnid : ∀ x ∈ s.tasks, x.id ≠ nid) :
    TaskService.get s t.id b = none ∧ TaskService.get s nid b = none ∧
      TaskService.update s t.id b u now = none ∧
      TaskService.update s nid b u now = none ∧
      TaskService.delete s t.id b = (false, s) ∧
      TaskService.delete s nid b = (false, s) := by
  have h1 : TaskService.get s t.id b = none := by
    unfold TaskService.get
    have hf : s.tasks.filter (fun x => x.id == t.id && x.user_id == b) = [] := by
      rw [List.filter_eq_nil_iff]
      intro x hx hpx
      simp only [Bool.and_eq_true, beq_iff_eq] at hpx
      obtain ⟨hid, hub⟩ := hpx
      have hxt := huniq x hx hid
      rw [hxt, ha] at hub
      exact hb hub.symm
    rw [hf]
    rfl
  have h2 : TaskService.get s nid b = none := by
    unfold TaskService.get
    have hf : s.tasks.filter (fun x => x.id == nid && x.user_id == b) = [] := by
      rw [List.filter_eq_nil_iff]
      intro x hx hpx
      simp only [Bool.and_eq_true, beq_iff_eq] at hpx
      exact hnid x hx hpx.1
    rw [hf]
    rfl
  refine ⟨h1, h2, ?_, ?_, ?_, ?_⟩
  · simp [TaskService.update, h1]
  · simp [TaskService.update, h2]
  · simp [TaskService.delete, h1]
  · simp [TaskService.delete, h2]

/-- Witness for C2 at a one-task store: owner 2 probing task 1 (owned by
owner 1) and probing the unused id 99 both see the not-found outcome. -/
theorem C2_witness :
    TaskService.get ⟨[c1wTask]⟩ c1wTask.id 2 = none ∧
      TaskService.delete ⟨[c1wTask]⟩ 99 2 = (false, ⟨[c1wTask]⟩) :=
  have h :=
    C2 ⟨[c1wTask]⟩ c1wTask 1 2 99 {} 0 (by decide) (by decide) (by decide)
      (by decide) (by decide)
  ⟨h.1, h.2.2.2.2.2⟩

/-! ## Claim C4: due-date window and null due dates -/

/-- C4: whenever the filter specification supplies `due_after` or
`due_before` (or both), every task with a null `due_date` is excluded
from the engine output; when it supplies neither, a task's membership is
decided by the remaining filters alone, so tasks with null `due_date`
are included (whenever they pass the other filters). -/
theorem C4 (ts : List Task) (f : Query.FilterSpec) (t : Task) :
    ((f.due_after ≠ none ∨ f.due_before ≠ none) → t.due_date = none →
        t ∉ Query.listTasks f ts) ∧
      (f.due_after = none → f.due_before = none →
        (t ∈ Query.listTasks f ts ↔
          (t ∈ ts ∧ Query.statusOk f t = true ∧
            Query.priorityOk f t = true ∧ Query.tagsOk f t = true))) := by
  constructor
  · intro hbound hnull hin
    rw [Query.mem_listTasks] at hin
    have hdate := hin.2.2.1
    have hfalse : Query.dateOk f t = false := by
      rcases hbound with h | h
      · cases hda : f.due_after with
        | none => exact absurd hda h
        | some a =>
          unfold Query.dateOk Query.afterOk
          rw [hda, hnull]
          rfl
      · cases hdb : f.due_before with
        | none => exact absurd hdb h
        | some b =>
          unfold Query.dateOk Query.beforeOk
          rw [hdb, hnull]
          simp
    rw [hfalse] at hdate
    cases hdate
  · intro hda hdb
    have hdate : Query.dateOk f t = true := by
      unfold Query.dateOk Query.afterOk Query.beforeOk
      rw [hda, hdb]
      rfl
    rw [Query.mem_listTasks]
    rw [hdate]
    tauto

/-- Witness for C4: a task with no due date is dropped once a
`due_before` bound is supplied, and listed under the empty filter. -/
theorem C4_witness :
    c1wTask ∉ Query.listTasks { due_before := some 10 } [c1wTask] ∧
      c1wTask ∈ Query.listTasks {} [c1wTask] :=
  ⟨(C4 [c1wTask] { due_before := some 10 } c1wTask).1 (Or.inr (by decide))
      rfl,
   ((C4 [c1wTask] {} c1wTask).2 rfl rfl).mpr (by decide)⟩

/-! ## Claim C5: tag filter is match-any -/

/-- C5: with a supplied non-empty tag set, a task is in the engine output
exactly when it is in the input, passes the other filters, and some tag
of the task lies in the requested set (match-any, not match-all); a task
with an empty tag set is always excluded. -/
theorem C5 (ts : List Task) (f : Query.FilterSpec) (req : List String)
    (t : Task) (hreq : f.tags = some req) (hne : req ≠ []) :
    (t ∈ Query.listTasks f ts ↔
        (t ∈ ts ∧ Query.statusOk f t = true ∧ Query.dateOk f t = true ∧
          Query.priorityOk f t = true ∧ ∃ tag ∈ t.tags, tag ∈ req)) ∧
      (t.tags = [] → t ∉ Query.listTasks f ts) := by
  have htag : Query.tagsOk f t = true ↔ ∃ tag ∈ t.tags, tag ∈ req := by
    unfold Query.tagsOk
    rw [hreq]
    simp [List.any_eq_true]
  constructor
  · rw [Query.mem_listTasks, htag]
  · intro hempty hin
    rw [Query.mem_listTasks] at hin
    have h := htag.mp hin.2.2.2.2
    rw [hempty] at h
    simp at h

/-- Tasks of the C5 witness: tagged work+urgent, personal, and untagged. -/
def c5t1 : Task := { c1wTask with id := 1, tags := ["work", "urgent"] }

/-- Second C5 witness task. -/
def c5t2 : Task := { c1wTask with id := 2, tags := ["personal"] }

/-- Third C5 witness task. -/
def c5t3 : Task := { c1wTask with id := 3, tags := [] }

/-- Witness for C5: requesting tag `work` keeps the work+urgent task and
drops the untagged one. -/
theorem C5_witness :
    c5t1 ∈ Query.listTasks { tags := some ["work"] } [c5t1, c5t2, c5t3] ∧
      c5t3 ∉ Query.listTasks { tags := some ["work"] } [c5t1, c5t2, c5t3] :=
  ⟨((C5 [c5t1, c5t2, c5t3] { tags := some ["work"] } ["work"] c5t1 rfl
        (by decide)).1).mpr (by decide),
   (C5 [c5t1, c5t2, c5t3] { tags := some ["work"] } ["work"] c5t3 rfl
      (by decide)).2 rfl⟩

/-! ## Claim C6: deterministic sort order -/

/-- Low-priority task of the C6 sorting example. -/
def c6low : Task := { c1wTask with id := 1, priority := TaskPriority.low }

/-- Medium-priority task of the C6 sorting example. -/
def c6med : Task :=
  { c1wTask with id := 2, priority := TaskPriority.medium }

/-- High-priority task of the C6 sorting example. -/
def c6high : Task := { c1wTask with id := 3, priority := TaskPriority.high }

/-- C6: the engine output is sorted under the deterministic order with
primary key descending by priority (high before medium before low, via
`priorityRank`), secondary key ascending by due date with nulls last
(via `dueNull`/`dueVal`), tertiary key ascending by `created_at`; the
output is a permutation of the filtered collection; and on the spec's
example — three tasks of priority high/medium/low, no due dates — the
unfiltered listing is ordered high, medium, low. -/
theorem C6 (ts : List Task) (f : Query.FilterSpec) :
    List.Sorted Query.taskLE (Query.listTasks f ts) ∧
      (Query.listTasks f ts).Perm (Query.applyFilters f ts) ∧
      Query.listTasks {} [c6low, c6high, c6med] = [c6high, c6med, c6low] := by
  refine ⟨?_, ?_, ?_⟩
  · exact List.sorted_insertionSort Query.taskLE _
  · exact List.perm_insertionSort Query.taskLE _
  · decide

/-! ## Claim C7: partial update frame property -/

/-- C7: a successful `update` replaces exactly the supplied fields and
`updated_at` (set to the update time): every updatable field absent from
the partial input keeps its previous value, a supplied field takes the
supplied value, and `id`, `user_id`, `created_at` are untouched;
`completed_at` follows the status coupling the code implements (set to
now when the supplied status is `done`, kept unchanged otherwise). -/
theorem C7 (s : Store) (task_id uid : Nat) (u : TaskUpdate) (now : Nat)
    (t t' : Task) (s' : Store)
    (hget : TaskService.get s task_id uid = some t)
    (hupd : TaskService.update s task_id uid u now = some (t', s')) :
    t'.title = (match u.title with | none => t.title | some v => v) ∧
      t'.description =
        (match u.description with | none => t.description | some v => v) ∧
      t'.status = (match u.status with | none => t.status | some v => v) ∧
      t'.priority =
        (match u.priority with | none => t.priority | some v => v) ∧
      t'.due_date =
        (match u.due_date with | none => t.due_date | some v => v) ∧
      t'.tags = (match u.tags with | none => t.tags | some v => v) ∧
      t'.id = t.id ∧ t'.user_id = t.user_id ∧
      t'.created_at = t.created_at ∧ t'.updated_at = now ∧
      (u.status ≠ some TaskStatus.done →
        t'.completed_at = t.completed_at) ∧
      (u.status = some TaskStatus.done → t'.completed_at = some now) := by
  have ht' : t' = TaskService.applyUpdate t u now := by
    simp only [TaskService.update, hget, Option.some.injEq, Prod.mk.injEq] at hupd
    exact hupd.1.symm
  subst ht'
  refine ⟨rfl, rfl, rfl, rfl, rfl, rfl, rfl, rfl, rfl, rfl, ?_, ?_⟩
  · intro hs
    simp [TaskService.applyUpdate, beq_some_done_eq_false hs]
  · intro hs
    simp [TaskService.applyUpdate, hs]

/-- A concrete partial update supplying only the title. -/
def c7u : TaskUpdate := { title := some "b" }

/-- The result of the concrete C7 update. -/
def c7res : Option (Task × Store) := TaskService.update ⟨[c1wTask]⟩ 1 1 c7u 7

/-- The task returned by the concrete C7 update. -/
def c7t' : Task := (c7res.getD default).1

/-- The store returned by the concrete C7 update. -/
def c7s' : Store := (c7res.getD default).2

/-- Witness for C7: updating only the title leaves status, tags and
completed_at at their previous values and bumps updated_at. -/
theorem C7_witness :
    c7t'.title = "b" ∧ c7t'.status = c1wTask.status ∧
      c7t'.tags = c1wTask.tags ∧ c7t'.updated_at = 7 ∧
      c7t'.completed_at = c1wTask.completed_at :=
  have h :=
    C7 ⟨[c1wTask]⟩ 1 1 c7u 7 c1wTask c7t' c7s' (by decide) (by decide)
  ⟨h.1, h.2.2.1, h.2.2.2.2.2.1, h.2.2.2.2.2.2.2.2.2.1,
    h.2.2.2.2.2.2.2.2.2.2.1 (by decide)⟩

/-! ## Claim C9: console id discipline -/

/-- Replacing the first matching element does not change the image of the
list under `g` when the replacement agrees with the original on `g`. -/
theorem modifyFirst_map_eq {α β : Type} (p : α → Bool) (f : α → α)
    (g : α → β) (h : ∀ x, p x = true → g (f x) = g x) (l : List α) :
    (modifyFirst p f l).map g = l.map g := by
  induction l with
  | nil => rfl
  | cons x xs ih =>
    unfold modifyFirst
    by_cases hp : p x = true
    · simp [hp, h x hp]
    · simp only [Bool.not_eq_true] at hp
      simp [hp, ih]

/-- Removing the first matching element yields a sublist. -/
theorem removeFirst_sublist {α : Type} (p : α → Bool) (l : List α) :
    List.Sublist (removeFirst p l) l := by
  induction l with
  | nil => exact List.Sublist.refl _
  | cons x xs ih =>
    unfold removeFirst
    by_cases hp : p x = true
    · simp only [hp, if_true]
      exact List.sublist_cons_self x xs
    · simp only [Bool.not_eq_true] at hp
      simp only [hp, Bool.false_eq_true, if_false]
      exact ih.cons₂ x

/-- In-place mutation of the first matching stored task preserves the id
discipline as long as the mutation does not touch the id. -/
theorem idInvariant_modifyFirst (s : Console.TaskStorage)
    (p : Console.Task → Bool) (f : Console.Task → Console.Task)
    (hf : ∀ x, p x = true → (f x).id = x.id) (h : Console.IdInvariant s) :
    Console.IdInvariant ⟨modifyFirst p f s.tasks, s.next_id⟩ := by
  obtain ⟨hlt, hnodup, hpos⟩ := h
  have hmap := modifyFirst_map_eq p f (fun x => x.id) hf s.tasks
  refine ⟨?_, ?_, hpos⟩
  · intro t ht
    have h1 : t.id ∈ (modifyFirst p f s.tasks).map (fun x => x.id) :=
      List.mem_map_of_mem _ ht
    rw [hmap] at h1
    obtain ⟨x, hx, hxid⟩ := List.mem_map.mp h1
    rw [← hxid]
    exact hlt x hx
  · show ((modifyFirst p f s.tasks).map (fun x => x.id)).Nodup
    rw [hmap]
    exact hnodup

/-- The empty storage satisfies the id discipline. -/
theorem idInvariant_init : Console.IdInvariant Console.TaskStorage.init := by
  refine ⟨?_, ?_, ?_⟩
  · intro t ht
    simp [Console.TaskStorage.init] at ht
  · simp [Console.TaskStorage.init]
  · exact Nat.le_refl 1

/-- Every console operation preserves the id discipline. -/
theorem idInvariant_step (s : Console.TaskStorage) (op : Console.Op)
    (h : Console.IdInvariant s) : Console.IdInvariant (Console.step s op) := by
  obtain ⟨hlt, hnodup, hpos⟩ := h
  cases op with
  | create title description now =>
    refine ⟨?_, ?_, ?_⟩
    · intro t ht
      simp only [Console.step, Console.TaskStorage.create,
        List.mem_append, List.mem_singleton] at ht
      rcases ht with h1 | h1
      · exact Nat.lt_succ_of_lt (hlt t h1)
      · rw [h1]
        exact Nat.lt_succ_self _
    · simp only [Console.step, Console.TaskStorage.create]
      rw [List.map_append, List.nodup_append]
      refine ⟨hnodup, by simp, ?_⟩
      intro a ha hb
      simp only [List.map_cons, List.map_nil, List.mem_singleton] at hb
      obtain ⟨x, hx, hxid⟩ := List.mem_map.mp ha
      have hxlt := hlt x hx
      omega
    · exact Nat.le_succ_of_le hpos
  | edit task_id title description =>
    show Console.IdInvariant (Console.TaskStorage.update s task_id title
      description).2
    unfold Console.TaskStorage.update
    cases hg : Console.TaskStorage.get s task_id with
    | none => exact ⟨hlt, hnodup, hpos⟩
    | some t =>
      refine idInvariant_modifyFirst s _ _ ?_ ⟨hlt, hnodup, hpos⟩
      intro x hpx
      have hxid : x.id = task_id := by simpa using hpx
      have htid : t.id = task_id := by
        simpa using List.find?_some hg
      show t.id = x.id
      omega
  | done task_id now =>
    exact idInvariant_modifyFirst s _ _ (fun x _ => rfl) ⟨hlt, hnodup, hpos⟩
  | undo task_id =>
    exact idInvariant_modifyFirst s _ _ (fun x _ => rfl) ⟨hlt, hnodup, hpos⟩
  | delete task_id =>
    show Console.IdInvariant (Console.TaskStorage.delete s task_id).2
    unfold Console.TaskStorage.delete
    cases hg : Console.TaskStorage.get s task_id with
    | none => exact ⟨hlt, hnodup, hpos⟩
    | some t =>
      have hsub := removeFirst_sublist (fun x => x.id == task_id) s.tasks
      refine ⟨?_, ?_, hpos⟩
      · intro x hx
        exact hlt x (hsub.subset hx)
      · show ((removeFirst (fun x => x.id == task_id) s.tasks).map
            (fun x => x.id)).Nodup
        exact List.Nodup.sublist (hsub.map (fun x => x.id)) hnodup

/-- Running any operation sequence from an id-disciplined state keeps the
discipline. -/
theorem idInvariant_run (ops : List Console.Op) (s : Console.TaskStorage)
    (h : Console.IdInvariant s) : Console.IdInvariant (Console.run s ops) := by
  induction ops generalizing s with
  | nil => exact h
  | cons op ops ih => exact ih _ (idInvariant_step s op h)

/-- Appending one operation to a run is one more step. -/
theorem run_append (s : Console.TaskStorage) (ops : List Console.Op)
    (op : Console.Op) :
    Console.run s (ops ++ [op]) = Console.step (Console.run s ops) op := by
  induction ops generalizing s with
  | nil => rfl
  | cons o os ih => exact ih _

/-- No console operation decreases `_next_id`. -/
theorem next_id_step_mono (s : Console.TaskStorage) (op : Console.Op) :
    s.next_id ≤ (Console.step s op).next_id := by
  cases op with
  | create title description now => exact Nat.le_succ _
  | edit task_id title description =>
    show s.next_id ≤ (Console.TaskStorage.update s task_id title
      description).2.next_id
    unfold Console.TaskStorage.update
    cases hg : Console.TaskStorage.get s task_id with
    | none => exact Nat.le_refl _
    | some t => exact Nat.le_refl _
  | done task_id now => exact Nat.le_refl _
  | undo task_id => exact Nat.le_refl _
  | delete task_id =>
    show s.next_id ≤ (Console.TaskStorage.delete s task_id).2.next_id
    unfold Console.TaskStorage.delete
    cases hg : Console.TaskStorage.get s task_id with
    | none => exact Nat.le_refl _
    | some t => exact Nat.le_refl _

/-- C9: the console storage starts with `_next_id = 1`; after every
sequence of console operations all stored ids are pairwise distinct and
strictly below `_next_id`; no operation (deletes included) decreases
`_next_id`; `create` assigns exactly the current `_next_id`, appends the
task and increments the counter (so ids assigned by successive creates
are strictly increasing and an id is never reused after its task is
deleted); and `delete` leaves `_next_id` untouched. -/
theorem C9 :
    Console.TaskStorage.init.next_id = 1 ∧
      (∀ ops : List Console.Op,
        Console.IdInvariant (Console.run Console.TaskStorage.init ops)) ∧
      (∀ (ops : List Console.Op) (op : Console.Op),
        (Console.run Console.TaskStorage.init ops).next_id ≤
          (Console.run Console.TaskStorage.init (ops ++ [op])).next_id) ∧
      (∀ (s : Console.TaskStorage) (title : String)
          (description : Option String) (now : Nat),
        (Console.TaskStorage.create s title description now).1.id =
            s.next_id ∧
          (Console.TaskStorage.create s title description now).2.next_id =
            s.next_id + 1 ∧
          (Console.TaskStorage.create s title description now).2.tasks =
            s.tasks ++ [(Console.TaskStorage.create s title description
              now).1]) ∧
      (∀ (s : Console.TaskStorage) (task_id : Nat),
        (Console.TaskStorage.delete s task_id).2.next_id = s.next_id) := by
  refine ⟨rfl, ?_, ?_, ?_, ?_⟩
  · intro ops
    exact idInvariant_run ops _ idInvariant_init
  · intro ops op
    rw [run_append]
    exact next_id_step_mono _ op
  · intro s title description now
    exact ⟨rfl, rfl, rfl⟩
  · intro s task_id
    unfold Console.TaskStorage.delete
    cases hg : Console.TaskStorage.get s task_id with
    | none => rfl
    | some t => rfl

/-- Witness for C9: the id discipline holds at the concrete state reached
by one create followed by its delete. -/
theorem C9_witness :
    Console.IdInvariant
      (Console.run Console.TaskStorage.init
        [Console.Op.create "a" none 0, Console.Op.delete 1]) :=
  C9.2.1 [Console.Op.create "a" none 0, Console.Op.delete 1]

/-! ## Claim C8: idempotence of mark-done -/

/-- A concrete console task for the C8 counterexample. -/
def c8Task : Console.Task :=
  { id := 1, title := "a", description := none,
    status := Console.TaskStatus.pending, created_at := 0,
    completed_at := none }

/-- C8 counterexample: `mark_done` re-stamps `completed_at` on every
call: marking done at time 0 and again at time 1 changes `completed_at`
from `some 0` to `some 1`, refuting the claimed value-equality of
`completed_at` after the second call. -/
theorem C8_counterexample :
    (c8Task.mark_done 0).completed_at = some 0 ∧
      ((c8Task.mark_done 0).mark_done 1).completed_at = some 1 ∧
      ((c8Task.mark_done 0).mark_done 1).completed_at ≠
        (c8Task.mark_done 0).completed_at ∧
      ((c8Task.mark_done 0).mark_done 1).status = Console.TaskStatus.done := by
  decide

/-- C8 amended: calling `mark_done` twice in a row leaves status `done`,
but each call re-stamps `completed_at` with its own current time: after
the second call `completed_at` is the second call's timestamp, and it
equals the value after the first call only when the two timestamps
coincide.  All other fields are unchanged between the two calls. -/
theorem C8_amended (t : Console.Task) (t1 t2 : Nat) :
    ((t.mark_done t1).mark_done t2).status = Console.TaskStatus.done ∧
      (t.mark_done t1).status = Console.TaskStatus.done ∧
      (t.mark_done t1).completed_at = some t1 ∧
      ((t.mark_done t1).mark_done t2).completed_at = some t2 ∧
      (((t.mark_done t1).mark_done t2).completed_at =
          (t.mark_done t1).completed_at ↔ t2 = t1) ∧
      ((t.mark_done t1).mark_done t2).id = (t.mark_done t1).id ∧
      ((t.mark_done t1).mark_done t2).title = (t.mark_done t1).title ∧
      ((t.mark_done t1).mark_done t2).description =
        (t.mark_done t1).description ∧
      ((t.mark_done t1).mark_done t2).created_at =
        (t.mark_done t1).created_at := by
  simp [Console.Task.mark_done]

/-! ## Claim C10: list never mutates the store and returns a fresh list -/

/-- Allocation returns a reference distinct from every live reference,
the new cell holds the allocated value, and writes through the new
reference never reach an old cell. -/
theorem heap_alloc_spec (h : Console.Heap) (v : List Console.Task)
    (ref : Nat) (href : ref < h.cells.length) :
    ((h.alloc v).2).read ref = h.read ref ∧
      (h.alloc v).1 ≠ ref ∧
      ((h.alloc v).2).read (h.alloc v).1 = v ∧
      (∀ w, (((h.alloc v).2).write (h.alloc v).1 w).read ref = h.read ref) := by
  refine ⟨?_, ?_, ?_, ?_⟩
  · show ((h.cells ++ [v])[ref]?).getD [] = (h.cells[ref]?).getD []
    rw [List.getElem?_append]
    simp [href]
  · show h.cells.length ≠ ref
    omega
  · show ((h.cells ++ [v])[h.cells.length]?).getD [] = v
    rw [List.getElem?_concat_length]
    rfl
  · intro w
    show (((h.cells ++ [v]).set h.cells.length w)[ref]?).getD [] =
      (h.cells[ref]?).getD []
    rw [List.getElem?_set_ne (by omega : h.cells.length ≠ ref)]
    rw [List.getElem?_append]
    simp [href]

/-- C10: `TaskStorage.list`, called on a valid store reference with any
status argument (including none), leaves the cell holding `self._tasks`
exactly as it was; the reference it returns is a fresh object distinct
from the store's, holding the listed tasks (the pure `TaskStorage.list`
value); and any caller-side mutation of the returned list object leaves
the store's collection unchanged. -/
theorem C10 (h : Console.Heap) (ref : Nat)
    (status : Option Console.TaskStatus) (href : ref < h.cells.length) :
    ((Console.listRef h ref status).2).read ref = h.read ref ∧
      (Console.listRef h ref status).1 ≠ ref ∧
      ((Console.listRef h ref status).2).read
          (Console.listRef h ref status).1 =
        Console.TaskStorage.list ⟨h.read ref, 0⟩ status ∧
      (∀ v, (((Console.listRef h ref status).2).write
            (Console.listRef h ref status).1 v).read ref = h.read ref) := by
  cases status with
  | none => exact heap_alloc_spec h (h.read ref) ref href
  | some st =>
    exact heap_alloc_spec h
      ((h.read ref).filter (fun t => t.status == st)) ref href

/-- Witness for C10 on a one-cell heap holding one task. -/
theorem C10_witness :
    ((Console.listRef ⟨[[c8Task]]⟩ 0 none).2).read 0 =
        Console.Heap.read ⟨[[c8Task]]⟩ 0 ∧
      (Console.listRef ⟨[[c8Task]]⟩ 0 none).1 ≠ 0 :=
  have h := C10 ⟨[[c8Task]]⟩ 0 none (by decide)
  ⟨h.1, h.2.1⟩

end Todo
